import Mathlib

/-
Shallow embedding of the Stellar Wizard contracts
(src/backend/contracts/{registry,factory_registry,nft}/src/lib.rs).

Each Soroban contract is modelled as a state record (one field per
storage key family) plus one Lean function per contract entry point.
A contract invocation is a pure state transition: it receives the
pre-state, the list of principals that authorize the call
(require_auth succeeds exactly when the principal is in the list) and
the ledger timestamp, and returns the result, the post-state, the
published events and (for the registry) the token transfers performed.
Panics and failed auth are modelled as error results; in the source a
check that fails always fires before any storage write of that call,
so returning the pre-state on error is faithful.

Machine integers are modelled as Nat / Int; theorems that quantify
over values where a fixed-width overflow is reachable in the Rust
code carry explicit bounds hypotheses.
-/

namespace StellarWizard

/-- Addresses: external principals, and contract instances deployed by the
factory with a salt derived injectively from the allocated collection id
(the salt is the id's 16 big-endian bytes placed in a 32-byte array). -/
inductive Addr where
  | acct (n : Nat)
  | deployed (salt : Nat)
deriving DecidableEq, Repr

namespace Registry

inductive RegistryError where
  | NotAuthorized
  | InvalidAmount
  | InvalidAddress
  | RecordNotFound
  | ContractPaused
  | InvalidFeeRate
deriving DecidableEq, Repr

/-- Failure of a registry invocation: a structured contract error, a Rust
panic (with its message), or a failed require_auth on the given principal. -/
inductive RegFailure where
  | err (e : RegistryError)
  | trap (msg : String)
  | authRequired (a : Addr)
deriving DecidableEq, Repr

inductive ActionType where
  | NFT
  | DEFI
deriving DecidableEq, Repr

structure ActionRecord where
  id : Nat
  user : Addr
  action_type : ActionType
  plan_hash : String
  payload_ref : String
  timestamp : Nat
  network : String
  tx_refs : List String
  fee_amount : Int
  total_amount : Int
deriving DecidableEq, Repr

structure Config where
  owner : Addr
  fee_bps : Nat
  fee_wallet : Addr
  paused : Bool
deriving DecidableEq, Repr

/-- Registry storage: DataKey::Config, DataKey::NextId, DataKey::Record(id),
DataKey::UserRecords(addr). -/
structure RegistryState where
  config : Option Config
  nextId : Option Nat
  records : Nat → Option ActionRecord
  userRecords : Addr → List Nat

/-- State with nothing stored yet. -/
def emptyRegistry : RegistryState :=
  { config := none, nextId := none, records := fun _ => none, userRecords := fun _ => [] }

inductive RegEvent where
  | fee_paid (id : Nat) (fee_wallet : Addr) (amount : Int)
  | action (id : Nat) (user : Addr) (t : ActionType) (plan_hash : String) (fee : Int)
deriving DecidableEq, Repr

/-- Token transfer performed through the token client at `token`. -/
structure Transfer where
  token : Addr
  src : Addr
  dst : Addr
  amount : Int
deriving DecidableEq, Repr

/-- Outcome of a registry invocation. -/
structure RegOut (α : Type) where
  result : Except RegFailure α
  state : RegistryState
  events : List RegEvent
  transfers : List Transfer

def MAX_FEE_BPS : Nat := 1000

/-- Registry initialize: panics if already initialized, rejects fee rates
above MAX_FEE_BPS, otherwise stores the config and NextId = 1. -/
def initContract (s : RegistryState) (owner : Addr) (fee_bps : Nat) (fee_wallet : Addr) :
    RegOut Unit :=
  if s.config.isSome then
    ⟨.error (.trap ("Contract already initialized")), s, [], []⟩
  else if fee_bps > MAX_FEE_BPS then
    ⟨.error (.err .InvalidFeeRate), s, [], []⟩
  else
    ⟨.ok (),
      { s with config := some ⟨owner, fee_bps, fee_wallet, false⟩, nextId := some 1 },
      [], []⟩

/-- get_config. -/
def get_config (s : RegistryState) : Except RegistryError Config :=
  match s.config with
  | none => .error .RecordNotFound
  | some c => .ok c

/-- log_and_route: the main mutator. Checks pause flag, user auth and
amount positivity, computes the fee with truncating i128 division,
allocates the next id, stores the record, updates the user index,
transfers the fee and emits events. -/
def log_and_route (s : RegistryState) (auths : List Addr) (now : Nat)
    (user : Addr) (action_type : ActionType) (plan_hash payload_ref network : String)
    (total_amount : Int) (token_address : Addr) : RegOut Nat :=
  match s.config with
  | none => ⟨.error (.err .RecordNotFound), s, [], []⟩
  | some config =>
    if config.paused then ⟨.error (.err .ContractPaused), s, [], []⟩
    else if !(auths.contains user) then ⟨.error (.authRequired user), s, [], []⟩
    else if total_amount ≤ 0 then ⟨.error (.err .InvalidAmount), s, [], []⟩
    else
      let fee_amount := Int.tdiv (total_amount * (config.fee_bps : Int)) 10000
      let id := s.nextId.getD 1
      let record : ActionRecord :=
        ⟨id, user, action_type, plan_hash, payload_ref, now, network, [], fee_amount, total_amount⟩
      let s2 : RegistryState :=
        { config := s.config
        , nextId := some (id + 1)
        , records := fun i => if i = id then some record else s.records i
        , userRecords := fun a =>
            if a = user then s.userRecords user ++ [id] else s.userRecords a }
      let feeEvents :=
        if fee_amount > 0 then [RegEvent.fee_paid id config.fee_wallet fee_amount] else []
      let feeTransfers :=
        if fee_amount > 0 then [Transfer.mk token_address user config.fee_wallet fee_amount]
        else []
      ⟨.ok id, s2, feeEvents ++ [RegEvent.action id user action_type plan_hash fee_amount],
        feeTransfers⟩

/-- append_tx_ref: only the record's stored user may append; appends at
the end of tx_refs. -/
def append_tx_ref (s : RegistryState) (auths : List Addr)
    (user : Addr) (id : Nat) (tx_ref : String) : RegOut Unit :=
  if !(auths.contains user) then ⟨.error (.authRequired user), s, [], []⟩
  else
    match s.records id with
    | none => ⟨.error (.err .RecordNotFound), s, [], []⟩
    | some record =>
      if record.user ≠ user then ⟨.error (.err .NotAuthorized), s, [], []⟩
      else
        let record2 := { record with tx_refs := record.tx_refs ++ [tx_ref] }
        ⟨.ok (),
          { s with records := fun i => if i = id then some record2 else s.records i },
          [], []⟩

/-- get_record. -/
def get_record (s : RegistryState) (id : Nat) : Except RegistryError ActionRecord :=
  match s.records id with
  | none => .error .RecordNotFound
  | some r => .ok r

/-- get_user_records. -/
def get_user_records (s : RegistryState) (user : Addr) : List Nat :=
  s.userRecords user

/-- set_fee_bps (owner only): rejects rates above MAX_FEE_BPS. -/
def set_fee_bps (s : RegistryState) (auths : List Addr) (fee_bps : Nat) : RegOut Unit :=
  match s.config with
  | none => ⟨.error (.err .RecordNotFound), s, [], []⟩
  | some config =>
    if !(auths.contains config.owner) then ⟨.error (.authRequired config.owner), s, [], []⟩
    else if fee_bps > MAX_FEE_BPS then ⟨.error (.err .InvalidFeeRate), s, [], []⟩
    else
      ⟨.ok (), { s with config := some { config with fee_bps := fee_bps } }, [], []⟩

/-- set_paused (owner only). -/
def set_paused (s : RegistryState) (auths : List Addr) (paused : Bool) : RegOut Unit :=
  match s.config with
  | none => ⟨.error (.err .RecordNotFound), s, [], []⟩
  | some config =>
    if !(auths.contains config.owner) then ⟨.error (.authRequired config.owner), s, [], []⟩
    else
      ⟨.ok (), { s with config := some { config with paused := paused } }, [], []⟩

/-- get_total_records: NextId (default 1) minus one. -/
def get_total_records (s : RegistryState) : Nat :=
  s.nextId.getD 1 - 1

/-- get_records_range: limit = 0 means "up to the last allocated record";
otherwise the inclusive range [start, start+limit-1] clipped to the last
record; missing ids are skipped. -/
def get_records_range (s : RegistryState) (start : Nat) (lim : Nat) : List ActionRecord :=
  let max_records := get_total_records s
  let e := if lim = 0 then max_records else start + lim - 1
  let actual_end := min e max_records
  (List.range' start (actual_end + 1 - start)).filterMap s.records

end Registry

namespace Factory

/-- Failure of a factory invocation: a Rust panic (with its message) or a
failed require_auth on the given principal. -/
inductive FFailure where
  | trap (msg : String)
  | authRequired (a : Addr)
deriving DecidableEq, Repr

structure Config where
  owner : Addr
  fee_bps : Nat
  fee_wallet : Addr
  nft_wasm_hash : Nat
deriving DecidableEq, Repr

structure CollectionMetadata where
  contract_id : Addr
  name : String
  symbol : String
  creator : Addr
  uri_base : String
  royalties_bps : Nat
  created_at : Nat
deriving DecidableEq, Repr

structure CollectionSummary where
  collection_id : Nat
  contract_id : Addr
  name : String
  symbol : String
  creator : Addr
  created_at : Nat
deriving DecidableEq, Repr

structure MintRecord where
  user : Addr
  amount : Nat
  timestamp : Nat
  fee_paid : Nat
deriving DecidableEq, Repr

/-- Factory storage: DataKey::Config, DataKey::NextCollectionId,
DataKey::Collection(id), DataKey::CreatorCollections(addr),
DataKey::CollectionMints(id), DataKey::NameToCollection(name),
DataKey::ContractToCollection(addr). -/
structure FactoryState where
  config : Option Config
  nextCollectionId : Option Nat
  collections : Nat → Option CollectionMetadata
  creatorCollections : Addr → List Nat
  collectionMints : Nat → List MintRecord
  nameToCollection : String → Option Nat
  contractToCollection : Addr → Option Nat

def emptyFactory : FactoryState :=
  { config := none, nextCollectionId := none, collections := fun _ => none
  , creatorCollections := fun _ => [], collectionMints := fun _ => []
  , nameToCollection := fun _ => none, contractToCollection := fun _ => none }

inductive FEvent where
  | collectionCreated (id : Nat) (contract : Addr) (name symbol : String) (caller : Addr)
  | feePaid (fee : Nat) (wallet : Addr)
  | mintLogged (id : Nat) (dst : Addr) (amount : Nat) (fee : Nat)
deriving DecidableEq, Repr

/-- Outcome of a factory invocation. -/
structure FOut (α : Type) where
  result : Except FFailure α
  state : FactoryState
  events : List FEvent

/-- Factory initialize: panics if already initialized or if the fee rate
exceeds 10000 bps; requires the owner's auth. -/
def initContract (s : FactoryState) (auths : List Addr)
    (owner : Addr) (fee_bps : Nat) (fee_wallet : Addr) (nft_wasm_hash : Nat) :
    FOut Unit :=
  if s.config.isSome then ⟨.error (.trap ("Already initialized")), s, []⟩
  else if !(auths.contains owner) then ⟨.error (.authRequired owner), s, []⟩
  else if fee_bps > 10000 then
    ⟨.error (.trap ("Fee BPS cannot exceed 10000 (100%)")), s, []⟩
  else
    ⟨.ok (),
      { s with config := some ⟨owner, fee_bps, fee_wallet, nft_wasm_hash⟩
             , nextCollectionId := some 1 }, []⟩

/-- set_config (owner only): panics if the fee rate exceeds 10000 bps;
the owner field is preserved. -/
def set_config (s : FactoryState) (auths : List Addr)
    (fee_bps : Nat) (fee_wallet : Addr) (nft_wasm_hash : Nat) : FOut Unit :=
  match s.config with
  | none => ⟨.error (.trap ("called Option unwrap on a None value")), s, []⟩
  | some config =>
    if !(auths.contains config.owner) then ⟨.error (.authRequired config.owner), s, []⟩
    else if fee_bps > 10000 then
      ⟨.error (.trap ("Fee BPS cannot exceed 10000 (100%)")), s, []⟩
    else
      ⟨.ok (),
        { s with config := some ⟨config.owner, fee_bps, fee_wallet, nft_wasm_hash⟩ }, []⟩

/-- create_collection: allocates the next collection id, deploys the child
NFT contract at an address derived deterministically from that id (the
id is the salt), stores the metadata, overwrites the name→id lookup,
stores the contract→id lookup, appends to the creator index and bumps
the counter. The external deployment collaborator is modelled as the
injective map id ↦ Addr.deployed id. -/
def create_collection (s : FactoryState) (auths : List Addr) (now : Nat)
    (caller : Addr) (name symbol uri_base : String) (royalties_bps : Nat) : FOut Nat :=
  if !(auths.contains caller) then ⟨.error (.authRequired caller), s, []⟩
  else
    match s.config with
    | none => ⟨.error (.trap ("called Option unwrap on a None value")), s, []⟩
    | some _config =>
      let collection_id := s.nextCollectionId.getD 1
      if royalties_bps > 10000 then
        ⟨.error (.trap ("Royalties cannot exceed 10000 (100%)")), s, []⟩
      else
        let contract_id := Addr.deployed collection_id
        let collection : CollectionMetadata :=
          ⟨contract_id, name, symbol, caller, uri_base, royalties_bps, now⟩
        let s2 : FactoryState :=
          { config := s.config
          , nextCollectionId := some (collection_id + 1)
          , collections := fun i =>
              if i = collection_id then some collection else s.collections i
          , creatorCollections := fun a =>
              if a = caller then s.creatorCollections caller ++ [collection_id]
              else s.creatorCollections a
          , collectionMints := s.collectionMints
          , nameToCollection := fun n =>
              if n = name then some collection_id else s.nameToCollection n
          , contractToCollection := fun a =>
              if a = contract_id then some collection_id else s.contractToCollection a }
        ⟨.ok collection_id, s2,
          [FEvent.collectionCreated collection_id contract_id name symbol caller]⟩

/-- mint (factory): charges a base fee of 1_000_000 stroops per NFT scaled
by fee_bps (emitting a fee event only when both the rate and the fee are
positive), forwards the mint to the child contract (external synchronous
call, assumed to succeed; its returned first token id feeds only a
diagnostic log) and appends a MintRecord to the collection's mint log. -/
def mint (s : FactoryState) (auths : List Addr) (now : Nat)
    (collection_id : Nat) (dst : Addr) (amount : Nat) : FOut Unit :=
  if !(auths.contains dst) then ⟨.error (.authRequired dst), s, []⟩
  else
    match s.config with
    | none => ⟨.error (.trap ("called Option unwrap on a None value")), s, []⟩
    | some config =>
      match s.collections collection_id with
      | none => ⟨.error (.trap ("Collection not found")), s, []⟩
      | some _collection =>
        let fee_amount :=
          if config.fee_bps > 0 then (1000000 * amount * config.fee_bps) / 10000 else 0
        let feeEvents :=
          if config.fee_bps > 0 ∧ fee_amount > 0 then
            [FEvent.feePaid fee_amount config.fee_wallet]
          else []
        let mint_record : MintRecord := ⟨dst, amount, now, fee_amount⟩
        let s2 : FactoryState :=
          { s with collectionMints := fun i =>
              if i = collection_id then s.collectionMints collection_id ++ [mint_record]
              else s.collectionMints i }
        ⟨.ok (), s2, feeEvents ++ [FEvent.mintLogged collection_id dst amount fee_amount]⟩

/-- get_collection: panics when the id is missing. -/
def get_collection (s : FactoryState) (collection_id : Nat) :
    Except FFailure CollectionMetadata :=
  match s.collections collection_id with
  | none => .error (.trap ("Collection not found"))
  | some c => .ok c

/-- list_collections: cursor defaults to 1, limit to 10; iterates the
half-open id range [start, min (start+limit) next_id), skipping missing
ids. -/
def list_collections (s : FactoryState) (cursor : Option Nat) (lim : Option Nat) :
    List CollectionSummary :=
  let next_id := s.nextCollectionId.getD 1
  let start := cursor.getD 1
  let l := lim.getD 10
  let e := min (start + l) next_id
  (List.range' start (e - start)).filterMap fun id =>
    (s.collections id).map fun c =>
      ⟨id, c.contract_id, c.name, c.symbol, c.creator, c.created_at⟩

/-- list_by_creator. -/
def list_by_creator (s : FactoryState) (creator : Addr) : List Nat :=
  s.creatorCollections creator

/-- get_collection_mints. -/
def get_collection_mints (s : FactoryState) (collection_id : Nat) : List MintRecord :=
  s.collectionMints collection_id

/-- get_next_collection_id. -/
def get_next_collection_id (s : FactoryState) : Nat :=
  s.nextCollectionId.getD 1

/-- get_total_collections. -/
def get_total_collections (s : FactoryState) : Nat :=
  let next_id := s.nextCollectionId.getD 1
  if next_id > 1 then next_id - 1 else 0

/-- find_by_name: name→id lookup, then the primary record. -/
def find_by_name (s : FactoryState) (name : String) : Option CollectionMetadata :=
  match s.nameToCollection name with
  | none => none
  | some collection_id => s.collections collection_id

/-- find_by_contract_id: contract→id lookup, then the primary record. -/
def find_by_contract_id (s : FactoryState) (contract_id : Addr) :
    Option CollectionMetadata :=
  match s.contractToCollection contract_id with
  | none => none
  | some collection_id => s.collections collection_id

end Factory

namespace NFT

/-- Failure of an NFT invocation: a Rust panic (with its message) or a
failed require_auth on the given principal. -/
inductive NFailure where
  | trap (msg : String)
  | authRequired (a : Addr)
deriving DecidableEq, Repr

structure CollectionMetadata where
  name : String
  symbol : String
  uri : String
  supply : Nat
  royalties : Nat
deriving DecidableEq, Repr

/-- NFT storage: DataKey::Owner, DataKey::Registry, DataKey::CollectionMeta,
DataKey::NextTokenId, DataKey::TotalMinted, DataKey::TokenOwner(id),
DataKey::Balance(addr). -/
structure NFTState where
  owner : Option Addr
  registry : Option Addr
  meta : Option CollectionMetadata
  nextTokenId : Option Nat
  totalMinted : Option Nat
  tokenOwner : Nat → Option Addr
  balance : Addr → Nat

def emptyNFT : NFTState :=
  { owner := none, registry := none, meta := none, nextTokenId := none
  , totalMinted := none, tokenOwner := fun _ => none, balance := fun _ => 0 }

/-- Outcome of an NFT invocation. -/
structure NOut (α : Type) where
  result : Except NFailure α
  state : NFTState

/-- NFT init: panics on re-init, on supply outside [1, 10000] and on
royalties above 10; stores owner, metadata, NextTokenId = 1 and
TotalMinted = 0. -/
def initContract (s : NFTState) (owner : Addr) (name symbol uri : String)
    (supply royalties : Nat) : NOut Unit :=
  if s.owner.isSome then ⟨.error (.trap ("Contract already initialized")), s⟩
  else if supply = 0 ∨ supply > 10000 then
    ⟨.error (.trap ("Invalid supply: must be between 1 and 10,000")), s⟩
  else if royalties > 10 then
    ⟨.error (.trap ("Invalid royalties: must be 10% or less")), s⟩
  else
    ⟨.ok (),
      { s with owner := some owner, meta := some ⟨name, symbol, uri, supply, royalties⟩
             , nextTokenId := some 1, totalMinted := some 0 }⟩

/-- set_registry (owner only). -/
def set_registry (s : NFTState) (auths : List Addr) (registry : Addr) : NOut Unit :=
  match s.owner with
  | none => ⟨.error (.trap ("called Option unwrap on a None value")), s⟩
  | some owner =>
    if !(auths.contains owner) then ⟨.error (.authRequired owner), s⟩
    else ⟨.ok (), { s with registry := some registry }⟩

/-- mintAuthority: the principal whose auth the NFT mint requires — the
registry if one is set, else the owner (none when neither is stored, in
which case the owner unwrap panics). -/
def mintAuthority (s : NFTState) : Option Addr :=
  match s.registry with
  | some r => some r
  | none => s.owner

/-- mint (NFT): authorized by the registry if one is set, else by the
owner; rejects mints that would exceed the supply; assigns token ids
[next, next+amount), updates the recipient's balance and both counters,
and returns the pre-increment next token id. -/
def mint (s : NFTState) (auths : List Addr) (dst : Addr) (amount : Nat) : NOut Nat :=
  match mintAuthority s with
  | none => ⟨.error (.trap ("called Option unwrap on a None value")), s⟩
  | some a =>
    if !(auths.contains a) then ⟨.error (.authRequired a), s⟩
    else
      match s.meta with
      | none => ⟨.error (.trap ("called Option unwrap on a None value")), s⟩
      | some metadata =>
        let total_minted := s.totalMinted.getD 0
        if total_minted + amount > metadata.supply then
          ⟨.error (.trap ("Exceeds maximum supply")), s⟩
        else
          let next_token_id := s.nextTokenId.getD 1
          let current_balance := s.balance dst
          let s2 : NFTState :=
            { s with
              tokenOwner := fun t =>
                if next_token_id ≤ t ∧ t < next_token_id + amount then some dst
                else s.tokenOwner t
            , balance := fun a2 =>
                if a2 = dst then current_balance + amount else s.balance a2
            , nextTokenId := some (next_token_id + amount)
            , totalMinted := some (total_minted + amount) }
          ⟨.ok next_token_id, s2⟩

/-- transfer: sender must authorize and own the token; moves the token
and adjusts both balances (the recipient's balance is written last). -/
def transfer (s : NFTState) (auths : List Addr) (src dst : Addr) (token_id : Nat) :
    NOut Unit :=
  if !(auths.contains src) then ⟨.error (.authRequired src), s⟩
  else
    match s.tokenOwner token_id with
    | none => ⟨.error (.trap ("Token does not exist")), s⟩
    | some owner =>
      if owner ≠ src then ⟨.error (.trap ("Not owner of token")), s⟩
      else
        let from_balance := s.balance src
        let to_balance := s.balance dst
        if from_balance = 0 then ⟨.error (.trap ("Insufficient balance")), s⟩
        else
          let bal1 := fun a => if a = src then from_balance - 1 else s.balance a
          let bal2 := fun a => if a = dst then to_balance + 1 else bal1 a
          ⟨.ok (),
            { s with
              tokenOwner := fun t => if t = token_id then some dst else s.tokenOwner t
            , balance := bal2 }⟩

/-- balance_of. -/
def balance_of (s : NFTState) (owner : Addr) : Nat :=
  s.balance owner

/-- get_total_minted. -/
def get_total_minted (s : NFTState) : Nat :=
  s.totalMinted.getD 0

/-- get_next_token_id. -/
def get_next_token_id (s : NFTState) : Nat :=
  s.nextTokenId.getD 1

/-- Invariant maintained by the NFT contract once initialized:
TotalMinted never exceeds the supply, and NextTokenId is always
TotalMinted + 1. -/
def NFTInv (s : NFTState) : Prop :=
  ∃ m tm nt, s.meta = some m ∧ s.totalMinted = some tm ∧ s.nextTokenId = some nt ∧
    tm ≤ m.supply ∧ nt = tm + 1

end NFT

namespace Factory

/-- Well-formed collection store: exactly the ids in [1, next_id) hold a
record (the shape every state reachable by create_collection has, since
ids are allocated sequentially from 1 and never deleted). -/
def CollectionsWF (s : FactoryState) : Prop :=
  ∀ id, (s.collections id).isSome ↔ (1 ≤ id ∧ id < get_next_collection_id s)

/-- One create_collection request. -/
structure CreateReq where
  caller : Addr
  name : String
  symbol : String
  uri_base : String
  royalties_bps : Nat
deriving DecidableEq, Repr

/-- Run a sequence of create_collection calls, each authorized by its own
caller, collecting the results. -/
def runCreates (now : Nat) : FactoryState → List CreateReq →
    List (Except FFailure Nat) × FactoryState
  | s, [] => ([], s)
  | s, r :: rs =>
    let out := create_collection s [r.caller] now r.caller r.name r.symbol r.uri_base
      r.royalties_bps
    let rest := runCreates now out.state rs
    (out.result :: rest.1, rest.2)

end Factory

namespace Registry

/-- Well-formed record store: exactly the ids in [1, NextId) hold a
record, and each record stores its own id (the shape every state
reachable by log_and_route has). -/
def RecordsWF (s : RegistryState) : Prop :=
  (∀ id, (s.records id).isSome ↔ (1 ≤ id ∧ id ≤ get_total_records s)) ∧
  (∀ id r, s.records id = some r → r.id = id)

end Registry

/- Concrete fixture states used by the witness theorems. -/

/-- Registry config with a 5% fee, owned by account 0, fees to account 1. -/
def cfg500 : Registry.Config := ⟨Addr.acct 0, 500, Addr.acct 1, false⟩

/-- Freshly initialized registry with cfg500. -/
def regS0 : Registry.RegistryState :=
  { config := some cfg500, nextId := some 1
  , records := fun _ => none, userRecords := fun _ => [] }

/-- The same registry, paused. -/
def regPaused : Registry.RegistryState :=
  { regS0 with config := some { cfg500 with paused := true } }

/-- An action record owned by account 2. -/
def rec1 : Registry.ActionRecord :=
  ⟨1, Addr.acct 2, .NFT, ("ph"), ("pr"), 0, ("net"), [], 500, 10000⟩

/-- Registry holding exactly rec1 under id 1. -/
def regS1 : Registry.RegistryState :=
  { config := some cfg500, nextId := some 2
  , records := fun i => if i = 1 then some rec1 else none
  , userRecords := fun a => if a = Addr.acct 2 then [1] else [] }

/-- Factory config with a 2.5% fee, owned by account 0. -/
def fcfg : Factory.Config := ⟨Addr.acct 0, 250, Addr.acct 1, 7⟩

/-- Freshly initialized factory with fcfg. -/
def facS0 : Factory.FactoryState :=
  { config := some fcfg, nextCollectionId := some 1
  , collections := fun _ => none, creatorCollections := fun _ => []
  , collectionMints := fun _ => [], nameToCollection := fun _ => none
  , contractToCollection := fun _ => none }

/-- A collection created by account 2 as collection 1. -/
def coll1 : Factory.CollectionMetadata :=
  ⟨Addr.deployed 1, ("A"), ("AA"), Addr.acct 2, ("u"), 100, 5⟩

/-- Factory holding exactly coll1 under id 1. -/
def facS1 : Factory.FactoryState :=
  { config := some fcfg, nextCollectionId := some 2
  , collections := fun i => if i = 1 then some coll1 else none
  , creatorCollections := fun a => if a = Addr.acct 2 then [1] else []
  , collectionMints := fun _ => []
  , nameToCollection := fun n => if n = "A" then some 1 else none
  , contractToCollection := fun a => if a = Addr.deployed 1 then some 1 else none }

/-- Registry with a zero fee rate. -/
def regZero : Registry.RegistryState :=
  { regS0 with config := some { cfg500 with fee_bps := 0 } }

/-- The factory holding coll1 but with a zero fee rate. -/
def facZero : Factory.FactoryState :=
  { facS1 with config := some { fcfg with fee_bps := 0 } }

/-- NFT collection metadata with supply 100. -/
def nmeta : NFT.CollectionMetadata := ⟨("N"), ("NN"), ("u"), 100, 5⟩

/-- Freshly initialized NFT contract owned by account 0, no registry set. -/
def nftS0 : NFT.NFTState :=
  { owner := some (Addr.acct 0), registry := none, meta := some nmeta
  , nextTokenId := some 1, totalMinted := some 0
  , tokenOwner := fun _ => none, balance := fun _ => 0 }

/-
Theorems settling the claims.
-/

/-- C1 counterexample: the claim says every r ≤ 10000 is accepted, but the
registry's ceiling is MAX_FEE_BPS = 1000: set_fee_bps 2000 on an
initialized registry (owner authorizing) fails with InvalidFeeRate even
though 2000 ≤ 10000, and the stored config keeps fee_bps = 500. -/
theorem fee_ceiling_counterexample :
    2000 ≤ 10000 ∧
    (Registry.set_fee_bps regS0 [Addr.acct 0] 2000).result =
      .error (.err .InvalidFeeRate) ∧
    (Registry.set_fee_bps regS0 [Addr.acct 0] 2000).state.config = some cfg500 := by
  refine ⟨by norm_num, rfl, rfl⟩

/-- C1 (amended): the registry's set_fee_bps and initialize accept a fee
rate r (config present resp. absent, owner authorizing) iff r ≤ 1000
(MAX_FEE_BPS), failing with InvalidFeeRate and leaving all state
unchanged otherwise; the factory's set_config and initialize accept r
iff r ≤ 10000, panicking and leaving all state unchanged otherwise. -/
theorem fee_ceiling_amended :
    (∀ (s : Registry.RegistryState) (cfg : Registry.Config) (auths : List Addr) (r : Nat),
      s.config = some cfg → auths.contains cfg.owner = true →
      (((Registry.set_fee_bps s auths r).result = .ok ()) ↔ r ≤ 1000) ∧
      (1000 < r →
        Registry.set_fee_bps s auths r = ⟨.error (.err .InvalidFeeRate), s, [], []⟩)) ∧
    (∀ (s : Registry.RegistryState) (o : Addr) (r : Nat) (w : Addr),
      s.config = none →
      (((Registry.initContract s o r w).result = .ok ()) ↔ r ≤ 1000) ∧
      (1000 < r →
        Registry.initContract s o r w = ⟨.error (.err .InvalidFeeRate), s, [], []⟩)) ∧
    (∀ (s : Factory.FactoryState) (cfg : Factory.Config) (auths : List Addr) (r : Nat)
      (w : Addr) (wasm : Nat),
      s.config = some cfg → auths.contains cfg.owner = true →
      (((Factory.set_config s auths r w wasm).result = .ok ()) ↔ r ≤ 10000) ∧
      (10000 < r →
        Factory.set_config s auths r w wasm =
          ⟨.error (.trap ("Fee BPS cannot exceed 10000 (100%)")), s, []⟩)) ∧
    (∀ (s : Factory.FactoryState) (auths : List Addr) (o : Addr) (r : Nat)
      (w : Addr) (wasm : Nat),
      s.config = none → auths.contains o = true →
      (((Factory.initContract s auths o r w wasm).result = .ok ()) ↔ r ≤ 10000) ∧
      (10000 < r →
        Factory.initContract s auths o r w wasm =
          ⟨.error (.trap ("Fee BPS cannot exceed 10000 (100%)")), s, []⟩)) := by
  refine ⟨?_, ?_, ?_, ?_⟩
  · intro s cfg auths r hc ha
    unfold Registry.set_fee_bps
    rw [hc]
    simp only [ha, Bool.not_true, Bool.false_eq_true, if_false, Registry.MAX_FEE_BPS]
    constructor
    · split <;> simp_all
    · intro hr
      rw [if_pos hr]
  · intro s o r w hc
    unfold Registry.initContract
    rw [hc]
    simp only [Option.isSome_none, Bool.false_eq_true, if_false, Registry.MAX_FEE_BPS]
    constructor
    · split <;> simp_all
    · intro hr
      rw [if_pos hr]
  · intro s cfg auths r w wasm hc ha
    unfold Factory.set_config
    rw [hc]
    simp only [ha, Bool.not_true, Bool.false_eq_true, if_false]
    constructor
    · split <;> simp_all
    · intro hr
      rw [if_pos hr]
  · intro s auths o r w wasm hc ha
    unfold Factory.initContract
    rw [hc]
    simp only [ha, Option.isSome_none, Bool.not_true, Bool.false_eq_true, if_false]
    constructor
    · split <;> simp_all
    · intro hr
      rw [if_pos hr]

/-- C1 witness: the amended theorem evaluated at concrete inputs — the
registry accepts 500 and rejects 2000 (InvalidFeeRate, state kept), the
factory accepts 9999 and rejects 20000 (panic, state kept). -/
theorem fee_ceiling_amended_witness :
    ((Registry.set_fee_bps regS0 [Addr.acct 0] 500).result = .ok () ↔ 500 ≤ 1000) ∧
    (Registry.set_fee_bps regS0 [Addr.acct 0] 2000 =
      ⟨.error (.err .InvalidFeeRate), regS0, [], []⟩) ∧
    ((Factory.set_config facS0 [Addr.acct 0] 9999 (Addr.acct 1) 7).result = .ok () ↔
      9999 ≤ 10000) ∧
    (Factory.initContract Factory.emptyFactory [Addr.acct 0] (Addr.acct 0) 20000
        (Addr.acct 1) 7 =
      ⟨.error (.trap ("Fee BPS cannot exceed 10000 (100%)")), Factory.emptyFactory, []⟩) := by
  refine ⟨?_, ?_, ?_, ?_⟩
  · exact (fee_ceiling_amended.1 regS0 cfg500 [Addr.acct 0] 500 rfl (by decide)).1
  · exact (fee_ceiling_amended.1 regS0 cfg500 [Addr.acct 0] 2000 rfl (by decide)).2
      (by norm_num)
  · exact (fee_ceiling_amended.2.2.1 facS0 fcfg [Addr.acct 0] 9999 (Addr.acct 1) 7 rfl
      (by decide)).1
  · exact (fee_ceiling_amended.2.2.2 Factory.emptyFactory [Addr.acct 0] (Addr.acct 0)
      20000 (Addr.acct 1) 7 rfl (by decide)).2 (by norm_num)

/-- C8: on an unpaused, initialized registry with the user authorizing,
log_and_route with total_amount ≤ 0 fails with InvalidAmount and leaves
every piece of state (and the event/transfer logs) untouched, so no
record is stored and no ID is consumed; with total_amount = 10000 and
fee_bps = 500 the call succeeds, returns the next id and stores a record
whose fee_amount is 500. -/
theorem log_invalid_amount_and_fee :
    ∀ (s : Registry.RegistryState) (cfg : Registry.Config) (auths : List Addr) (now : Nat)
      (user : Addr) (t : Registry.ActionType) (ph pr net : String) (b : Int) (tok : Addr),
      s.config = some cfg → cfg.paused = false → auths.contains user = true →
      (b ≤ 0 →
        Registry.log_and_route s auths now user t ph pr net b tok =
          ⟨.error (.err .InvalidAmount), s, [], []⟩) ∧
      (cfg.fee_bps = 500 →
        (Registry.log_and_route s auths now user t ph pr net 10000 tok).result =
          .ok (s.nextId.getD 1) ∧
        ((Registry.log_and_route s auths now user t ph pr net 10000 tok).state.records
            (s.nextId.getD 1)).map (·.fee_amount) = some 500) := by
  intro s cfg auths now user t ph pr net b tok hc hp ha
  constructor
  · intro hb
    unfold Registry.log_and_route
    rw [hc]
    simp only [hp, Bool.false_eq_true, if_false, ha, Bool.not_true, if_pos hb]
  · intro hf
    unfold Registry.log_and_route
    rw [hc]
    simp only [hp, Bool.false_eq_true, if_false, ha, Bool.not_true]
    rw [if_neg (by norm_num)]
    refine ⟨rfl, ?_⟩
    simp only [if_pos rfl, Option.map_some, hf]
    norm_num
    decide

/-- C7: append_tx_ref on a stored record by an authorized principal other
than the record's stored user fails with NotAuthorized and changes
nothing; by the record's own user it succeeds, appends tx_ref at the end
of tx_refs and touches no other record; appending x then y to a record
with empty tx_refs leaves tx_refs = [x, y] in call order. -/
theorem append_tx_ref_auth :
    ∀ (s : Registry.RegistryState) (auths : List Addr) (u : Addr) (id : Nat)
      (x y : String) (rec : Registry.ActionRecord),
      s.records id = some rec →
      (auths.contains u = true → u ≠ rec.user →
        Registry.append_tx_ref s auths u id x =
          ⟨.error (.err .NotAuthorized), s, [], []⟩) ∧
      (auths.contains rec.user = true →
        (Registry.append_tx_ref s auths rec.user id x).result = .ok () ∧
        (Registry.append_tx_ref s auths rec.user id x).state.records id =
          some { rec with tx_refs := rec.tx_refs ++ [x] } ∧
        (∀ j, j ≠ id →
          (Registry.append_tx_ref s auths rec.user id x).state.records j =
            s.records j)) ∧
      (auths.contains rec.user = true → rec.tx_refs = [] →
        ((Registry.append_tx_ref
            (Registry.append_tx_ref s auths rec.user id x).state auths rec.user id
            y).state.records id).map (·.tx_refs) = some [x, y]) := by
  intro s auths u id x y rec hrec
  have step : ∀ (s' : Registry.RegistryState) (z : String) (r : Registry.ActionRecord),
      s'.records id = some r → auths.contains r.user = true →
      (Registry.append_tx_ref s' auths r.user id z).result = .ok () ∧
      (Registry.append_tx_ref s' auths r.user id z).state.records id =
        some { r with tx_refs := r.tx_refs ++ [z] } ∧
      (∀ j, j ≠ id → (Registry.append_tx_ref s' auths r.user id z).state.records j =
        s'.records j) := by
    intro s' z r hr ha
    unfold Registry.append_tx_ref
    simp only [ha, Bool.not_true, Bool.false_eq_true, if_false, hr, ne_eq,
      not_true_eq_false, if_pos rfl]
    refine ⟨by trivial, by simp, ?_⟩
    intro j hj
    simp [hj]
  refine ⟨?_, ?_, ?_⟩
  · intro ha hne
    unfold Registry.append_tx_ref
    simp only [ha, Bool.not_true, Bool.false_eq_true, if_false, hrec]
    rw [if_pos (Ne.symm hne)]
  · intro ha
    exact step s x rec hrec ha
  · intro ha _hnil
    have h1 := step s x rec hrec ha
    have h2 := step (Registry.append_tx_ref s auths rec.user id x).state y
      { rec with tx_refs := rec.tx_refs ++ [x] } h1.2.1 ha
    rw [h2.2.1]
    simp [_hnil]

/-- C8 witness: on the fresh registry (fee_bps = 500), logging -5 fails
with InvalidAmount leaving the state as it was, and logging 10000
succeeds with id 1 and stored fee_amount 500. -/
theorem log_invalid_amount_and_fee_witness :
    (Registry.log_and_route regS0 [Addr.acct 2] 0 (Addr.acct 2) .NFT ("p") ("q") ("n")
        (-5) (Addr.acct 9) =
      ⟨.error (.err .InvalidAmount), regS0, [], []⟩) ∧
    (Registry.log_and_route regS0 [Addr.acct 2] 0 (Addr.acct 2) .NFT ("p") ("q") ("n")
        10000 (Addr.acct 9)).result = .ok 1 ∧
    ((Registry.log_and_route regS0 [Addr.acct 2] 0 (Addr.acct 2) .NFT ("p") ("q") ("n")
        10000 (Addr.acct 9)).state.records 1).map (·.fee_amount) = some 500 := by
  have h := log_invalid_amount_and_fee regS0 cfg500 [Addr.acct 2] 0 (Addr.acct 2) .NFT
    ("p") ("q") ("n") (-5) (Addr.acct 9) rfl rfl (by decide)
  exact ⟨h.1 (by norm_num), (h.2 rfl).1, (h.2 rfl).2⟩

/-- C7 witness: on the registry holding rec1 (owned by account 2),
account 3 appending to record 1 gets NotAuthorized with nothing changed,
while account 2 appends successfully, and appending a then b yields
tx_refs = [a, b]. -/
theorem append_tx_ref_auth_witness :
    (Registry.append_tx_ref regS1 [Addr.acct 3] (Addr.acct 3) 1 ("a") =
      ⟨.error (.err .NotAuthorized), regS1, [], []⟩) ∧
    (Registry.append_tx_ref regS1 [Addr.acct 2] (Addr.acct 2) 1 ("a")).result = .ok () ∧
    ((Registry.append_tx_ref
        (Registry.append_tx_ref regS1 [Addr.acct 2] (Addr.acct 2) 1 ("a")).state
        [Addr.acct 2] (Addr.acct 2) 1 ("b")).state.records 1).map (·.tx_refs) =
      some [("a"), ("b")] := by
  have h1 := append_tx_ref_auth regS1 [Addr.acct 3] (Addr.acct 3) 1 ("a") ("b") rec1 rfl
  have h2 := append_tx_ref_auth regS1 [Addr.acct 2] (Addr.acct 2) 1 ("a") ("b") rec1 rfl
  exact ⟨h1.1 (by decide) (by decide), (h2.2.1 (by decide)).1, h2.2.2 (by decide) rfl⟩

/-- C4: while the registry is paused, log_and_route fails with
ContractPaused touching nothing (so NextId keeps its value n), all reads
still work and set_paused / set_fee_bps (owner authorizing, rate within
the ceiling) still succeed; after set_paused(false) the next
log_and_route succeeds and returns exactly n — the paused attempt
consumed no id. -/
theorem paused_rejects_and_resumes :
    ∀ (s : Registry.RegistryState) (cfg : Registry.Config) (auths : List Addr) (now : Nat)
      (user : Addr) (t : Registry.ActionType) (ph pr net : String) (b : Int) (tok : Addr)
      (n : Nat),
      s.config = some cfg → cfg.paused = true → s.nextId = some n →
      auths.contains cfg.owner = true → auths.contains user = true → 0 < b →
      (Registry.log_and_route s auths now user t ph pr net b tok =
        ⟨.error (.err .ContractPaused), s, [], []⟩) ∧
      Registry.get_config s = .ok cfg ∧
      (∀ i r, s.records i = some r → Registry.get_record s i = .ok r) ∧
      (∀ a2, Registry.get_user_records s a2 = s.userRecords a2) ∧
      (∀ p, (Registry.set_paused s auths p).result = .ok ()) ∧
      (∀ r, r ≤ 1000 → (Registry.set_fee_bps s auths r).result = .ok ()) ∧
      (Registry.log_and_route (Registry.set_paused s auths false).state auths now user t
          ph pr net b tok).result = .ok n ∧
      (Registry.log_and_route (Registry.set_paused s auths false).state auths now user t
          ph pr net b tok).state.nextId = some (n + 1) := by
  intro s cfg auths now user t ph pr net b tok n hc hp hn hown ha hb
  have hown2 : cfg.owner ∈ auths := List.mem_of_elem_eq_true hown
  have ha2 : user ∈ auths := List.mem_of_elem_eq_true ha
  refine ⟨?_, ?_, ?_, fun _ => rfl, ?_, ?_, ?_, ?_⟩
  · unfold Registry.log_and_route
    rw [hc]
    simp [hp]
  · unfold Registry.get_config
    rw [hc]
  · intro i r h
    unfold Registry.get_record
    rw [h]
  · intro p
    unfold Registry.set_paused
    rw [hc]
    simp [hown2]
  · intro r hr
    unfold Registry.set_fee_bps
    rw [hc]
    dsimp only
    rw [if_neg (by simp [hown2]),
      if_neg (show ¬r > Registry.MAX_FEE_BPS from Nat.not_lt.mpr hr)]
  · unfold Registry.set_paused Registry.log_and_route
    rw [hc]
    simp only [hown, Bool.not_true, Bool.false_eq_true, if_false, ha]
    rw [if_neg (not_le.mpr hb)]
    simp [hn, hown2, ha2]
  · unfold Registry.set_paused Registry.log_and_route
    rw [hc]
    simp only [hown, Bool.not_true, Bool.false_eq_true, if_false, ha]
    rw [if_neg (not_le.mpr hb)]
    simp [hn, hown2, ha2]

/-- C4 witness: on the paused fresh registry (NextId = 1), the paused
call fails with ContractPaused and state intact, and after unpausing the
next call returns id 1. -/
theorem paused_rejects_and_resumes_witness :
    (Registry.log_and_route regPaused [Addr.acct 0, Addr.acct 2] 0 (Addr.acct 2) .NFT
        ("p") ("q") ("n") 10000 (Addr.acct 9) =
      ⟨.error (.err .ContractPaused), regPaused, [], []⟩) ∧
    (Registry.log_and_route
        (Registry.set_paused regPaused [Addr.acct 0, Addr.acct 2] false).state
        [Addr.acct 0, Addr.acct 2] 0 (Addr.acct 2) .NFT ("p") ("q") ("n") 10000
        (Addr.acct 9)).result = .ok 1 := by
  have h := paused_rejects_and_resumes regPaused { cfg500 with paused := true }
    [Addr.acct 0, Addr.acct 2] 0 (Addr.acct 2) .NFT ("p") ("q") ("n") 10000
    (Addr.acct 9) 1 rfl rfl rfl (by decide) (by decide) (by norm_num)
  exact ⟨h.1, h.2.2.2.2.2.2.1⟩

/-- Helper: a create_collection call with config present, the caller
authorizing and royalties within the ceiling succeeds, returns the
current NextCollectionId and bumps it by one, keeping the config. -/
theorem create_collection_ok (s : Factory.FactoryState) (cfg : Factory.Config)
    (auths : List Addr) (now : Nat) (caller : Addr) (nm sym uri : String) (roy : Nat)
    (hc : s.config = some cfg) (ha : caller ∈ auths) (hroy : roy ≤ 10000) :
    (Factory.create_collection s auths now caller nm sym uri roy).result =
      .ok (s.nextCollectionId.getD 1) ∧
    (Factory.create_collection s auths now caller nm sym uri roy).state.config =
      s.config ∧
    (Factory.create_collection s auths now caller nm sym uri roy).state.nextCollectionId
      = some (s.nextCollectionId.getD 1 + 1) := by
  unfold Factory.create_collection
  rw [if_neg (by simp [ha]), hc]
  dsimp only
  rw [if_neg (Nat.not_lt.mpr hroy)]
  exact ⟨rfl, hc ▸ rfl, rfl⟩

/-- Helper: running a list of valid create_collection requests from a
state whose counter is k yields exactly the ids k, k+1, ... in call
order and leaves the counter at k + N, keeping the config. -/
theorem runCreates_seq (now : Nat) (reqs : List Factory.CreateReq) :
    ∀ (s : Factory.FactoryState) (cfg : Factory.Config) (k : Nat),
      s.config = some cfg → s.nextCollectionId = some k →
      (∀ r ∈ reqs, r.royalties_bps ≤ 10000) →
      (Factory.runCreates now s reqs).1 = (List.range' k reqs.length).map Except.ok ∧
      (Factory.runCreates now s reqs).2.config = some cfg ∧
      (Factory.runCreates now s reqs).2.nextCollectionId = some (k + reqs.length) := by
  induction reqs with
  | nil =>
    intro s cfg k hc hk _
    exact ⟨rfl, hc, hk⟩
  | cons r rs ih =>
    intro s cfg k hc hk hall
    have hone := create_collection_ok s cfg [r.caller] now r.caller r.name r.symbol
      r.uri_base r.royalties_bps hc (by simp) (hall r (by simp))
    have hknext : (Factory.create_collection s [r.caller] now r.caller r.name r.symbol
        r.uri_base r.royalties_bps).state.nextCollectionId = some (k + 1) := by
      rw [hone.2.2, hk]
      rfl
    have hrest := ih (Factory.create_collection s [r.caller] now r.caller r.name
        r.symbol r.uri_base r.royalties_bps).state cfg (k + 1)
      (hone.2.1.trans hc) hknext (fun q hq => hall q (List.mem_cons_of_mem r hq))
    refine ⟨?_, hrest.2.1, ?_⟩
    · show (Factory.create_collection s [r.caller] now r.caller r.name r.symbol
          r.uri_base r.royalties_bps).result ::
        (Factory.runCreates now _ rs).1 = _
      rw [hone.1, hrest.1, hk, List.length_cons, List.range'_succ, List.map_cons]
      rfl
    · show (Factory.runCreates now _ rs).2.nextCollectionId = _
      rw [hrest.2.2, List.length_cons]
      congr 1
      omega

/-- C2: starting from a freshly initialized factory (NextCollectionId =
1), any sequence of N valid create_collection calls returns exactly the
ids 1, 2, ..., N in call order (strictly increasing from 1, never
reused), and get_total_collections returns N afterward. -/
theorem collection_ids_sequential :
    ∀ (reqs : List Factory.CreateReq) (s : Factory.FactoryState) (cfg : Factory.Config)
      (now : Nat),
      s.config = some cfg → s.nextCollectionId = some 1 →
      (∀ r ∈ reqs, r.royalties_bps ≤ 10000) →
      (Factory.runCreates now s reqs).1 =
        (List.range' 1 reqs.length).map Except.ok ∧
      Factory.get_total_collections (Factory.runCreates now s reqs).2 = reqs.length := by
  intro reqs s cfg now hc hk hall
  have h := runCreates_seq now reqs s cfg 1 hc hk hall
  refine ⟨h.1, ?_⟩
  unfold Factory.get_total_collections
  rw [h.2.2]
  simp only [Option.getD_some]
  split <;> omega

/-- C2 witness: three creations on the fresh factory return ids
[1, 2, 3] and the total is 3. -/
theorem collection_ids_sequential_witness :
    (Factory.runCreates 0 facS0
        [⟨Addr.acct 2, ("A"), ("AA"), ("u"), 100⟩,
         ⟨Addr.acct 3, ("B"), ("BB"), ("u"), 0⟩,
         ⟨Addr.acct 2, ("C"), ("CC"), ("u"), 10000⟩]).1 =
      [Except.ok 1, Except.ok 2, Except.ok 3] ∧
    Factory.get_total_collections
      (Factory.runCreates 0 facS0
        [⟨Addr.acct 2, ("A"), ("AA"), ("u"), 100⟩,
         ⟨Addr.acct 3, ("B"), ("BB"), ("u"), 0⟩,
         ⟨Addr.acct 2, ("C"), ("CC"), ("u"), 10000⟩]).2 = 3 := by
  have h := collection_ids_sequential
    [⟨Addr.acct 2, ("A"), ("AA"), ("u"), 100⟩,
     ⟨Addr.acct 3, ("B"), ("BB"), ("u"), 0⟩,
     ⟨Addr.acct 2, ("C"), ("CC"), ("u"), 10000⟩] facS0 fcfg 0 rfl rfl
    (by intro r hr; fin_cases hr <;> norm_num)
  exact ⟨h.1, h.2⟩

/-- Helper: filterMap over a list of ids on which the lookup always hits,
followed by projecting each result back to its id, is the identity. -/
theorem filterMap_proj_ids {α : Type} (g : Nat → Option α) (pid : α → Nat)
    (hpid : ∀ id c, g id = some c → pid c = id) :
    ∀ L : List Nat, (∀ id ∈ L, (g id).isSome) → (L.filterMap g).map pid = L := by
  intro L
  induction L with
  | nil => intro _; rfl
  | cons a L ih =>
    intro h
    obtain ⟨c, hc⟩ := Option.isSome_iff_exists.mp (h a (by simp))
    rw [List.filterMap_cons, hc, List.map_cons, hpid a c hc,
      ih (fun id hid => h id (by simp [hid]))]

/-- Helper: concatenation of two adjacent step-1 ranges. -/
theorem range1_append (a n m : Nat) :
    List.range' a n ++ List.range' (a + n) m = List.range' a (n + m) := by
  rw [Nat.add_comm n m]
  have h := List.range'_append a n m 1
  simp only [one_mul] at h
  exact h

/-- Helper: get_records_range with the special-cased limit 0 scans from
start to the last allocated record. -/
theorem get_records_range_zero (s : Registry.RegistryState) (start : Nat) :
    Registry.get_records_range s start 0 =
      (List.range' start (Registry.get_total_records s + 1 - start)).filterMap
        s.records := by
  unfold Registry.get_records_range
  norm_num

/-- C6: a limit of 0 is read asymmetrically — the registry's
get_records_range(start, 0) returns every stored record from start up to
the last allocated one (their ids are exactly start..max), while the
factory's list_collections with an explicit limit of 0 returns the empty
sequence on any state. -/
theorem zero_limit_asymmetry :
    (∀ (s : Registry.RegistryState) (start : Nat),
      Registry.RecordsWF s → 1 ≤ start →
      (Registry.get_records_range s start 0).map (·.id) =
        List.range' start (Registry.get_total_records s + 1 - start)) ∧
    (∀ (s2 : Factory.FactoryState) (c : Nat),
      Factory.list_collections s2 (some c) (some 0) = []) := by
  constructor
  · intro s start hwf hstart
    rw [get_records_range_zero]
    apply filterMap_proj_ids s.records (·.id) hwf.2
    intro id hid
    have hm := List.mem_range'_1.mp hid
    exact (hwf.1 id).mpr (by omega)
  · intro s2 c
    unfold Factory.list_collections
    have h0 : min (c + 0) (s2.nextCollectionId.getD 1) - c = 0 := by omega
    simp only [Option.getD_some, h0, List.range'_zero, List.filterMap_nil]

/-- C6 witness: on the registry holding exactly record 1,
get_records_range(1, 0) returns the one record (id 1), and the factory
holding one collection returns nothing for an explicit limit of 0. -/
theorem zero_limit_asymmetry_witness :
    Registry.RecordsWF regS1 ∧
    (Registry.get_records_range regS1 1 0).map (·.id) = [1] ∧
    Factory.list_collections facS1 (some 1) (some 0) = [] := by
  have hwf : Registry.RecordsWF regS1 := by
    constructor
    · intro id
      by_cases h : id = 1
      · simp [regS1, h, Registry.get_total_records]
      · simp [regS1, h, Registry.get_total_records]
        omega
    · intro id r h
      by_cases hid : id = 1
      · subst hid
        have h2 : rec1 = r := by simpa [regS1] using h
        rw [← h2]
        rfl
      · simp [regS1, hid] at h
  refine ⟨hwf, ?_, zero_limit_asymmetry.2 facS1 1⟩
  have h := zero_limit_asymmetry.1 regS1 1 hwf (by norm_num)
  rw [h]
  rfl

/-- C5: on a well-formed factory state with next unallocated id next,
list_collections(some c, some l) with c ≥ 1 returns exactly
min(l, next - c) summaries, their ids being c, c+1, ... in increasing
order; it returns [] whenever c ≥ next; omitted cursor/limit default to
1 and 10; and adjacent pages concatenate to the single larger page, so
paging reconstructs the full set with no gaps or duplicates. -/
theorem list_collections_pagination :
    ∀ (s : Factory.FactoryState) (next c l l2 : Nat),
      Factory.CollectionsWF s → next = Factory.get_next_collection_id s →
      (1 ≤ c → c + l < 2 ^ 128 →
        (Factory.list_collections s (some c) (some l)).map (·.collection_id) =
          List.range' c (min l (next - c)) ∧
        (Factory.list_collections s (some c) (some l)).length = min l (next - c)) ∧
      (next ≤ c → Factory.list_collections s (some c) (some l) = []) ∧
      (Factory.list_collections s none none =
        Factory.list_collections s (some 1) (some 10)) ∧
      (1 ≤ c → c + l + l2 < 2 ^ 128 →
        Factory.list_collections s (some c) (some l) ++
          Factory.list_collections s (some (c + l)) (some l2) =
          Factory.list_collections s (some c) (some (l + l2))) := by
  intro s next c l l2 hwf hnext
  have hg : Factory.get_next_collection_id s = s.nextCollectionId.getD 1 := rfl
  rw [hg] at hnext
  subst hnext
  have hpid : ∀ (id : Nat) (cc : Factory.CollectionSummary),
      ((s.collections id).map fun m =>
        Factory.CollectionSummary.mk id m.contract_id m.name m.symbol m.creator
          m.created_at) = some cc → cc.collection_id = id := by
    intro id cc h
    cases hm : s.collections id with
    | none => rw [hm] at h; simp at h
    | some m =>
      rw [hm] at h
      simp only [Option.map_some', Option.some.injEq] at h
      rw [← h]
  have hvalid : ∀ a n : Nat, 1 ≤ a →
      ∀ id ∈ List.range' a (min (a + n) (s.nextCollectionId.getD 1) - a),
        (s.collections id).isSome := by
    intro a n ha id hid
    have hm := List.mem_range'_1.mp hid
    exact (hwf id).mpr (by rw [hg]; omega)
  have hform : ∀ a n : Nat, Factory.list_collections s (some a) (some n) =
      (List.range' a (min (a + n) (s.nextCollectionId.getD 1) - a)).filterMap
        (fun id => (s.collections id).map fun m =>
          Factory.CollectionSummary.mk id m.contract_id m.name m.symbol m.creator
            m.created_at) := fun a n => rfl
  have hmap : ∀ a n : Nat,
      (∀ id ∈ List.range' a (min (a + n) (s.nextCollectionId.getD 1) - a),
        (s.collections id).isSome) →
      (Factory.list_collections s (some a) (some n)).map (·.collection_id) =
        List.range' a (min (a + n) (s.nextCollectionId.getD 1) - a) := by
    intro a n hall
    rw [hform a n]
    apply filterMap_proj_ids _ _ hpid
    intro id hid
    have hsome := hall id hid
    cases h2 : s.collections id with
    | none => rw [h2] at hsome; simp at hsome
    | some m => rfl
  refine ⟨?_, ?_, rfl, ?_⟩
  · intro hc _
    have h := hmap c l (hvalid c l hc)
    have harith : min (c + l) (s.nextCollectionId.getD 1) - c =
        min l (s.nextCollectionId.getD 1 - c) := by omega
    rw [harith] at h
    refine ⟨h, ?_⟩
    have hlen := congrArg List.length h
    simpa using hlen
  · intro hge
    have harith : min (c + l) (s.nextCollectionId.getD 1) - c = 0 := by omega
    rw [hform c l, harith, List.range'_zero, List.filterMap_nil]
  · intro hc _
    rw [hform c l, hform (c + l) l2, hform c (l + l2), ← List.filterMap_append]
    congr 1
    have h2 : c + (min (c + l) (s.nextCollectionId.getD 1) - c) = c + l ∨
        min (c + l + l2) (s.nextCollectionId.getD 1) - (c + l) = 0 := by omega
    rcases h2 with h2 | h2
    · have hap := range1_append c (min (c + l) (s.nextCollectionId.getD 1) - c)
        (min (c + l + l2) (s.nextCollectionId.getD 1) - (c + l))
      rw [h2] at hap
      rw [hap]
      congr 1
      omega
    · rw [h2, List.range'_zero, List.append_nil]
      congr 1
      omega

/-- C5 witness: the pagination theorem evaluated on the factory holding
one collection (next id 2): the first page lists exactly id 1, a cursor
at 2 yields nothing, defaults coincide with (1, 10), and pages (1,3) and
(4,5) concatenate to page (1,8). -/
theorem list_collections_pagination_witness :
    Factory.CollectionsWF facS1 ∧
    (Factory.list_collections facS1 (some 1) (some 10)).map (·.collection_id) =
      List.range' 1 (min 10 (2 - 1)) ∧
    Factory.list_collections facS1 (some 2) (some 10) = [] ∧
    (Factory.list_collections facS1 none none =
      Factory.list_collections facS1 (some 1) (some 10)) ∧
    (Factory.list_collections facS1 (some 1) (some 3) ++
      Factory.list_collections facS1 (some (1 + 3)) (some 5) =
      Factory.list_collections facS1 (some 1) (some (3 + 5))) := by
  have hwf : Factory.CollectionsWF facS1 := by
    intro id
    by_cases h : id = 1
    · simp [facS1, h, Factory.get_next_collection_id]
    · simp [facS1, h, Factory.get_next_collection_id]
      omega
  have h := list_collections_pagination facS1 2 1 10 0 hwf rfl
  have h2 := list_collections_pagination facS1 2 2 10 0 hwf rfl
  have h3 := list_collections_pagination facS1 2 1 3 5 hwf rfl
  exact ⟨hwf, (h.1 (by norm_num) (by norm_num)).1, h2.2.1 (by norm_num), h.2.2.1,
    h3.2.2.2 (by norm_num) (by norm_num)⟩

/-- Helper: truncating division agrees with Nat floor division on
Nat-cast operands. -/
theorem tdiv_natCast (p q : Nat) : Int.tdiv (p : Int) (q : Int) = ((p / q : Nat) : Int) :=
  rfl

/-- C3: the registry fee is floor(b * r / 10000): a successful
log_and_route stores fee_amount = b*r/10000 (Nat floor division); with a
zero rate it performs no token transfer and publishes only the action
event (fee 0); the factory's mint records fee_paid =
(1000000*amount)*r/10000 and with a zero rate publishes only the
mint-logged event, no fee-paid event. -/
theorem fee_floor_and_zero_rate :
    (∀ (s : Registry.RegistryState) (cfg : Registry.Config) (auths : List Addr)
      (now : Nat) (user : Addr) (t : Registry.ActionType) (ph pr net : String)
      (b : Int) (tok : Addr),
      s.config = some cfg → cfg.paused = false → auths.contains user = true →
      0 < b → b * (cfg.fee_bps : Int) < 2 ^ 127 →
      ((Registry.log_and_route s auths now user t ph pr net b tok).state.records
          (s.nextId.getD 1)).map (·.fee_amount) =
        some ((b.toNat * cfg.fee_bps / 10000 : Nat) : Int)) ∧
    (∀ (s : Registry.RegistryState) (cfg : Registry.Config) (auths : List Addr)
      (now : Nat) (user : Addr) (t : Registry.ActionType) (ph pr net : String)
      (b : Int) (tok : Addr),
      s.config = some cfg → cfg.paused = false → auths.contains user = true →
      0 < b → cfg.fee_bps = 0 →
      (Registry.log_and_route s auths now user t ph pr net b tok).transfers = [] ∧
      (Registry.log_and_route s auths now user t ph pr net b tok).events =
        [Registry.RegEvent.action (s.nextId.getD 1) user t ph 0]) ∧
    (∀ (fs : Factory.FactoryState) (fc : Factory.Config) (auths : List Addr)
      (now : Nat) (cid : Nat) (dst : Addr) (amt : Nat)
      (coll : Factory.CollectionMetadata),
      fs.config = some fc → fs.collections cid = some coll →
      auths.contains dst = true →
      (Factory.mint fs auths now cid dst amt).result = .ok () ∧
      (Factory.mint fs auths now cid dst amt).state.collectionMints cid =
        fs.collectionMints cid ++
          [Factory.MintRecord.mk dst amt now (1000000 * amt * fc.fee_bps / 10000)]) ∧
    (∀ (fs : Factory.FactoryState) (fc : Factory.Config) (auths : List Addr)
      (now : Nat) (cid : Nat) (dst : Addr) (amt : Nat)
      (coll : Factory.CollectionMetadata),
      fs.config = some fc → fs.collections cid = some coll →
      auths.contains dst = true → fc.fee_bps = 0 →
      (Factory.mint fs auths now cid dst amt).events =
        [Factory.FEvent.mintLogged cid dst amt 0]) := by
  refine ⟨?_, ?_, ?_, ?_⟩
  · intro s cfg auths now user t ph pr net b tok hc hp ha hb _hbound
    unfold Registry.log_and_route
    rw [hc]
    simp only [hp, Bool.false_eq_true, if_false, ha, Bool.not_true]
    rw [if_neg (not_le.mpr hb)]
    obtain ⟨bn, rfl⟩ : ∃ bn : Nat, b = (bn : Int) :=
      ⟨b.toNat, (Int.toNat_of_nonneg hb.le).symm⟩
    rw [← Int.natCast_mul]
    simp only [eq_self_iff_true, if_true, ite_true, Option.map_some', Option.some.injEq,
      Int.toNat_natCast]
    exact tdiv_natCast (bn * cfg.fee_bps) 10000
  · intro s cfg auths now user t ph pr net b tok hc hp ha hb hf0
    unfold Registry.log_and_route
    rw [hc]
    simp only [hp, Bool.false_eq_true, if_false, ha, Bool.not_true]
    rw [if_neg (not_le.mpr hb)]
    simp [hf0]
  · intro fs fc auths now cid dst amt coll hc hcoll ha
    have ha2 : dst ∈ auths := List.mem_of_elem_eq_true ha
    unfold Factory.mint
    rw [if_neg (by simp [ha2]), hc]
    dsimp only
    rw [hcoll]
    dsimp only
    refine ⟨rfl, ?_⟩
    by_cases hr : fc.fee_bps > 0
    · simp [hr]
    · have hr0 : fc.fee_bps = 0 := by omega
      simp [hr0]
  · intro fs fc auths now cid dst amt coll hc hcoll ha hf0
    have ha2 : dst ∈ auths := List.mem_of_elem_eq_true ha
    unfold Factory.mint
    rw [if_neg (by simp [ha2]), hc]
    dsimp only
    rw [hcoll]
    dsimp only
    simp [hf0]

/-- C3 witness: logging 10000 at rate 500 stores fee 500; at rate 0 the
registry transfers nothing and publishes only the action event; the
factory mint of 4 NFTs at rate 250 records fee 100000, and at rate 0
publishes only the mint-logged event. -/
theorem fee_floor_and_zero_rate_witness :
    ((Registry.log_and_route regS0 [Addr.acct 2] 0 (Addr.acct 2) .NFT ("p") ("q") ("n")
        10000 (Addr.acct 9)).state.records 1).map (·.fee_amount) = some 500 ∧
    (Registry.log_and_route regZero [Addr.acct 2] 0 (Addr.acct 2) .NFT ("p") ("q") ("n")
        10000 (Addr.acct 9)).transfers = [] ∧
    (Registry.log_and_route regZero [Addr.acct 2] 0 (Addr.acct 2) .NFT ("p") ("q") ("n")
        10000 (Addr.acct 9)).events =
      [Registry.RegEvent.action 1 (Addr.acct 2) .NFT ("p") 0] ∧
    (Factory.mint facS1 [Addr.acct 5] 0 1 (Addr.acct 5) 4).state.collectionMints 1 =
      [Factory.MintRecord.mk (Addr.acct 5) 4 0 100000] ∧
    (Factory.mint facZero [Addr.acct 5] 0 1 (Addr.acct 5) 4).events =
      [Factory.FEvent.mintLogged 1 (Addr.acct 5) 4 0] := by
  have h1 := fee_floor_and_zero_rate.1 regS0 cfg500 [Addr.acct 2] 0 (Addr.acct 2) .NFT
    ("p") ("q") ("n") 10000 (Addr.acct 9) rfl rfl (by decide) (by norm_num)
    (by norm_num [cfg500])
  have h2 := fee_floor_and_zero_rate.2.1 regZero { cfg500 with fee_bps := 0 }
    [Addr.acct 2] 0 (Addr.acct 2) .NFT ("p") ("q") ("n") 10000 (Addr.acct 9) rfl rfl
    (by decide) (by norm_num) rfl
  have h3 := fee_floor_and_zero_rate.2.2.1 facS1 fcfg [Addr.acct 5] 0 1 (Addr.acct 5) 4
    coll1 rfl rfl (by decide)
  have h4 := fee_floor_and_zero_rate.2.2.2 facZero { fcfg with fee_bps := 0 }
    [Addr.acct 5] 0 1 (Addr.acct 5) 4 coll1 rfl rfl (by decide) rfl
  exact ⟨h1, h2.1, h2.2, h3.2, h4⟩

/-- C9: creating a second collection under an existing name overwrites
the name→id lookup unconditionally, so find_by_name now resolves to the
new collection; the first collection's primary record is untouched and
still reachable through get_collection by its id and through
find_by_contract_id by its contract address. -/
theorem duplicate_name_overwrite :
    ∀ (s : Factory.FactoryState) (cfg : Factory.Config) (auths : List Addr) (now : Nat)
      (caller : Addr) (nm sym uri : String) (roy : Nat) (id1 next : Nat)
      (c1 : Factory.CollectionMetadata),
      s.config = some cfg → s.nextCollectionId = some next →
      s.nameToCollection nm = some id1 → s.collections id1 = some c1 →
      s.contractToCollection (Addr.deployed id1) = some id1 →
      c1.contract_id = Addr.deployed id1 → id1 < next →
      auths.contains caller = true → roy ≤ 10000 →
      (Factory.create_collection s auths now caller nm sym uri roy).result = .ok next ∧
      (Factory.create_collection s auths now caller nm sym uri
          roy).state.nameToCollection nm = some next ∧
      Factory.find_by_name
          (Factory.create_collection s auths now caller nm sym uri roy).state nm =
        some ⟨Addr.deployed next, nm, sym, caller, uri, roy, now⟩ ∧
      (Factory.create_collection s auths now caller nm sym uri roy).state.collections
          id1 = some c1 ∧
      Factory.get_collection
          (Factory.create_collection s auths now caller nm sym uri roy).state id1 =
        .ok c1 ∧
      Factory.find_by_contract_id
          (Factory.create_collection s auths now caller nm sym uri roy).state
          (Addr.deployed id1) = some c1 := by
  intro s cfg auths now caller nm sym uri roy id1 next c1 hc hnext hname hid1 hcontr
    hcid hlt ha hroy
  have ha2 : caller ∈ auths := List.mem_of_elem_eq_true ha
  have hgetd : s.nextCollectionId.getD 1 = next := by rw [hnext]; rfl
  unfold Factory.create_collection
  rw [if_neg (by simp [ha2]), hc]
  dsimp only
  rw [if_neg (Nat.not_lt.mpr hroy), hgetd]
  have hne : id1 ≠ next := Nat.ne_of_lt hlt
  refine ⟨rfl, by simp, ?_, ?_, ?_, ?_⟩
  · unfold Factory.find_by_name
    simp
  · simp [hne, hid1]
  · unfold Factory.get_collection
    simp [hne, hid1]
  · unfold Factory.find_by_contract_id
    have hadne : Addr.deployed id1 ≠ Addr.deployed next := by
      intro h
      exact hne (Addr.deployed.injEq id1 next ▸ h)
    simp [hadne, hcontr, hne, hid1]

/-- C9 witness: on the factory holding coll1 (named A, id 1, contract
deployed 1), creating another collection named A yields id 2, redirects
find_by_name A to the new collection, and leaves collection 1 intact and
reachable by id and by contract address. -/
theorem duplicate_name_overwrite_witness :
    (Factory.create_collection facS1 [Addr.acct 3] 9 (Addr.acct 3) ("A") ("Z") ("v")
        0).result = .ok 2 ∧
    Factory.find_by_name
        (Factory.create_collection facS1 [Addr.acct 3] 9 (Addr.acct 3) ("A") ("Z") ("v")
          0).state ("A") =
      some ⟨Addr.deployed 2, ("A"), ("Z"), Addr.acct 3, ("v"), 0, 9⟩ ∧
    Factory.get_collection
        (Factory.create_collection facS1 [Addr.acct 3] 9 (Addr.acct 3) ("A") ("Z") ("v")
          0).state 1 = .ok coll1 ∧
    Factory.find_by_contract_id
        (Factory.create_collection facS1 [Addr.acct 3] 9 (Addr.acct 3) ("A") ("Z") ("v")
          0).state (Addr.deployed 1) = some coll1 := by
  have h := duplicate_name_overwrite facS1 fcfg [Addr.acct 3] 9 (Addr.acct 3) ("A") ("Z")
    ("v") 0 1 2 coll1 rfl rfl rfl rfl rfl rfl (by norm_num) (by decide) (by norm_num)
  exact ⟨h.1, h.2.2.1, h.2.2.2.2.1, h.2.2.2.2.2⟩

/-- C10: the NFT contract establishes total_minted = 0 ≤ supply and
next_token_id = 1 = total_minted + 1 at init; mint is accepted exactly
when total_minted + amount ≤ supply, in which case it returns the
pre-increment next_token_id, adds amount to both counters and preserves
the invariants, and otherwise panics leaving the state untouched;
transfer never changes meta, total_minted or next_token_id and so also
preserves the invariants. -/
theorem nft_mint_invariants :
    (∀ (s : NFT.NFTState) (o : Addr) (nm sym uri : String) (supply roy : Nat),
      s.owner = none → 1 ≤ supply → supply ≤ 10000 → roy ≤ 10 →
      (NFT.initContract s o nm sym uri supply roy).result = .ok () ∧
      NFT.NFTInv (NFT.initContract s o nm sym uri supply roy).state) ∧
    (∀ (s : NFT.NFTState) (auths : List Addr) (a dst : Addr) (amount : Nat)
      (m : NFT.CollectionMetadata) (tm nt : Nat),
      NFT.mintAuthority s = some a → auths.contains a = true →
      s.meta = some m → s.totalMinted = some tm → s.nextTokenId = some nt →
      tm ≤ m.supply → nt = tm + 1 →
      (tm + amount ≤ m.supply →
        (NFT.mint s auths dst amount).result = .ok nt ∧
        (NFT.mint s auths dst amount).state.totalMinted = some (tm + amount) ∧
        (NFT.mint s auths dst amount).state.nextTokenId = some (nt + amount) ∧
        NFT.NFTInv (NFT.mint s auths dst amount).state) ∧
      (m.supply < tm + amount →
        NFT.mint s auths dst amount = ⟨.error (.trap ("Exceeds maximum supply")), s⟩)) ∧
    (∀ (s : NFT.NFTState) (auths : List Addr) (src dst : Addr) (tid : Nat),
      (NFT.transfer s auths src dst tid).state.meta = s.meta ∧
      (NFT.transfer s auths src dst tid).state.totalMinted = s.totalMinted ∧
      (NFT.transfer s auths src dst tid).state.nextTokenId = s.nextTokenId ∧
      (NFT.NFTInv s → NFT.NFTInv (NFT.transfer s auths src dst tid).state)) := by
  refine ⟨?_, ?_, ?_⟩
  · intro s o nm sym uri supply roy hno h1 h2 h3
    unfold NFT.initContract
    rw [if_neg (by simp [hno]), if_neg (by omega), if_neg (Nat.not_lt.mpr h3)]
    exact ⟨rfl, ⟨nm, sym, uri, supply, roy⟩, 0, 1, rfl, rfl, rfl, by omega, rfl⟩
  · intro s auths a dst amount m tm nt hauth ha hm htm hnt hinv1 hinv2
    have ha2 : a ∈ auths := List.mem_of_elem_eq_true ha
    constructor
    · intro hok
      unfold NFT.mint
      rw [hauth]
      dsimp only
      rw [if_neg (by simp [ha2]), hm]
      dsimp only
      rw [htm]
      simp only [Option.getD_some]
      rw [if_neg (Nat.not_lt.mpr hok), hnt]
      simp only [Option.getD_some]
      exact ⟨trivial, trivial, trivial, m, tm + amount, nt + amount, rfl, rfl, rfl, hok,
        by omega⟩
    · intro hexceed
      unfold NFT.mint
      rw [hauth]
      dsimp only
      rw [if_neg (by simp [ha2]), hm]
      dsimp only
      rw [htm]
      simp only [Option.getD_some]
      rw [if_pos hexceed]
  · intro s auths src dst tid
    have hst : (NFT.transfer s auths src dst tid).state.meta = s.meta ∧
        (NFT.transfer s auths src dst tid).state.totalMinted = s.totalMinted ∧
        (NFT.transfer s auths src dst tid).state.nextTokenId = s.nextTokenId := by
      unfold NFT.transfer
      dsimp only
      split
      · exact ⟨rfl, rfl, rfl⟩
      · split
        · exact ⟨rfl, rfl, rfl⟩
        · split
          · exact ⟨rfl, rfl, rfl⟩
          · split
            · exact ⟨rfl, rfl, rfl⟩
            · exact ⟨rfl, rfl, rfl⟩
    refine ⟨hst.1, hst.2.1, hst.2.2, ?_⟩
    intro hinv
    obtain ⟨m, tm, nt, h1, h2, h3, h4, h5⟩ := hinv
    exact ⟨m, tm, nt, hst.1.trans h1, hst.2.1.trans h2, hst.2.2.trans h3, h4, h5⟩

/-- C10 witness: init on the empty NFT state with supply 100 succeeds
and establishes the invariants; on the initialized state, minting 5
returns token id 1 and moves the counters to 5 and 6, while minting 200
panics with the supply message leaving the state unchanged. -/
theorem nft_mint_invariants_witness :
    (NFT.initContract NFT.emptyNFT (Addr.acct 0) ("N") ("NN") ("u") 100 5).result =
      .ok () ∧
    (NFT.mint nftS0 [Addr.acct 0] (Addr.acct 7) 5).result = .ok 1 ∧
    (NFT.mint nftS0 [Addr.acct 0] (Addr.acct 7) 5).state.totalMinted = some 5 ∧
    (NFT.mint nftS0 [Addr.acct 0] (Addr.acct 7) 5).state.nextTokenId = some 6 ∧
    NFT.mint nftS0 [Addr.acct 0] (Addr.acct 7) 200 =
      ⟨.error (.trap ("Exceeds maximum supply")), nftS0⟩ := by
  have h1 := nft_mint_invariants.1 NFT.emptyNFT (Addr.acct 0) ("N") ("NN") ("u") 100 5
    rfl (by norm_num) (by norm_num) (by norm_num)
  have h2 := nft_mint_invariants.2.1 nftS0 [Addr.acct 0] (Addr.acct 0) (Addr.acct 7) 5
    nmeta 0 1 rfl (by decide) rfl rfl rfl (by norm_num [nmeta]) rfl
  have h3 := nft_mint_invariants.2.1 nftS0 [Addr.acct 0] (Addr.acct 0) (Addr.acct 7) 200
    nmeta 0 1 rfl (by decide) rfl rfl rfl (by norm_num [nmeta]) rfl
  have h2ok := h2.1 (by norm_num [nmeta])
  exact ⟨h1.1, h2ok.1, h2ok.2.1, h2ok.2.2.1, h3.2 (by norm_num [nmeta])⟩

end StellarWizard
